import Mathlib

/-
Shallow embedding of the babylon job-orchestration engine and its NONMEM
file-lifecycle policy, translated from the Go sources:

  * cmd/nonmem.go  — targeted-file policy (getActionableFileList,
    extrapolateFilesFromExtensions, filesToCleanup, filesToCopy, ...)
  * cmd/sge.go     — SGE work-unit lifecycle (Prepare / Work / Monitor /
    Cleanup), recordConcurrentError, executeSGEJob
  * parsers/nmparser (run-details file) — parseLine, parseNMVersion,
    replaceTrim, ParseRunDetails

Effectful Go code is embedded as pure functions over explicit environments
(the outcomes of filesystem / process operations) that return the sequence
of channel signals sent and the sequence of filesystem effects performed.
A Go slice-index panic is modelled by an `Option` result being `none`.
-/

namespace Babylon

/-! ### Go string primitives -/

/-- Character class of Go `unicode.IsSpace`, restricted to ASCII
(space, tab, newline, vertical tab, form feed, carriage return).
Used by `strings.Fields` and `strings.TrimSpace`. -/
def goIsSpace (c : Char) : Bool :=
  c == ' ' || c == '\t' || c == '\n' || c == '\x0b' || c == '\x0c' || c == '\r'

/-- Character class of the Go regexp `\s`, i.e. `[\t\n\f\r ]`
(note: no vertical tab). Used by `parseNMVersion`. -/
def goRegexSpace (c : Char) : Bool :=
  c == ' ' || c == '\t' || c == '\n' || c == '\x0c' || c == '\r'

/-- Does `pat` occur at the very start of `s`? (character-list version) -/
def startsWithChars : List Char → List Char → Bool
  | [], _ => true
  | _ :: _, [] => false
  | c :: cs, d :: ds => c == d && startsWithChars cs ds

/-- Does `sub` occur contiguously anywhere in `hay`? -/
def containsSubChars (sub : List Char) : List Char → Bool
  | [] => startsWithChars sub []
  | c :: t => startsWithChars sub (c :: t) || containsSubChars sub t

/-- Go `strings.Contains s sub`. -/
def strContains (s sub : String) : Bool :=
  containsSubChars sub.toList s.toList

/-- Splitter for Go `strings.Fields`: accumulate the current token (reversed)
and cut at every whitespace run. -/
def fieldsAux : List Char → List Char → List String
  | [], [] => []
  | [], acc => [String.mk acc.reverse]
  | c :: rest, acc =>
    if goIsSpace c then
      match acc with
      | [] => fieldsAux rest []
      | _ :: _ => String.mk acc.reverse :: fieldsAux rest []
    else fieldsAux rest (c :: acc)

/-- Go `strings.Fields`: the whitespace-separated tokens of `s`. -/
def fields (s : String) : List String :=
  fieldsAux s.toList []

/-- Remove every (non-overlapping, left-to-right) occurrence of the non-empty
pattern `pat` from `s`; Go `strings.Replace(s, pat, "", -1)`. -/
def removeAllOcc (pat : List Char) (s : List Char) : List Char :=
  match s with
  | [] => []
  | c :: t =>
    if h : pat.length ≠ 0 ∧ startsWithChars pat (c :: t) = true then
      removeAllOcc pat (List.drop pat.length (c :: t))
    else
      c :: removeAllOcc pat t
termination_by s.length
decreasing_by
  · simp only [List.length_drop, List.length_cons]
    omega
  · simp [List.length_cons]

/-- Go `strings.TrimSpace`. -/
def trimSpaceGo (s : String) : String :=
  String.mk (((s.toList.dropWhile goIsSpace).reverse.dropWhile goIsSpace).reverse)

/-! ### nmparser: run-details parsing (parsers/nmparser) -/

/-- `replaceTrim(line, replacement)`: delete every occurrence of
`replacement`, then trim surrounding whitespace. -/
def replaceTrim (line replacement : String) : String :=
  trimSpaceGo (String.mk (removeAllOcc replacement.toList line.toList))

/-- `parseNMVersion(line)`: the Go regexp `[^\s]+$` applied with
`FindString`, i.e. the trailing maximal run of non-`\s` characters of the
line (empty when the line ends in whitespace or is empty). -/
def parseNMVersion (line : String) : String :=
  String.mk ((line.toList.reverse.takeWhile (fun c => !goRegexSpace c)).reverse)

/-- `parseLine(line, n)` from the run-details parser:

    tokens := strings.Fields(line)
    if len(tokens) >= n { return tokens[n] }
    return ""

`none` models the Go runtime panic: when `tokens.length = n` the guard
passes yet `tokens[n]` is out of bounds. -/
def parseLine (line : String) (n : Nat) : Option String :=
  let tokens := fields line
  if tokens.length ≥ n then tokens.get? n else some ""

/-- Modelled from the spec: the sentinel default marking an unset string
field of the run details. Its definition lives in an nmparser constants
file that is not among the provided sources; the theorems below only rely
on it being distinct from any actual NONMEM version token such as
`"7.4.3"`, and it is taken as the repository's numeric-sentinel string. -/
def DefaultString : String := "-999999999"

/-- The run-details record built by `ParseRunDetails`. String fields hold
their Go values; the fields Go converts with `strconv`/float regexes are
kept as the raw pre-conversion strings (`none` = untouched numeric
sentinel `DefaultInt64`/`DefaultFloat64`), since floating-point and
integer conversion never influences control flow or indexing. -/
structure RunDetails where
  version : String := DefaultString
  runStart : String := DefaultString
  runEnd : String := DefaultString
  estimationTime : Option String := none
  covarianceTime : Option String := none
  functionEvaluations : Option String := none
  significantDigits : Option String := none
  problemText : String := DefaultString
  modFile : String := DefaultString
  estimationMethod : List String := []
  dataSet : String := DefaultString
  numberOfPatients : Option String := none
  numberOfObs : Option String := none
  numberOfDataRecords : Option String := none
  outputTable : String := DefaultString
  deriving Repr, DecidableEq

/-- One iteration of the `ParseRunDetails` switch, for the line at index
`i`. The cases are tried in source order; `strings.Contains` decides each.
`none` propagates the `parseLine` panic on a `$DATA` line. -/
def rdStep (lines : List String) (i : Nat) (line : String) (st : RunDetails) :
    Option RunDetails :=
  if strContains line "1NONLINEAR MIXED EFFECTS MODEL PROGRAM (NONMEM) VERSION" then
    some { st with version := parseNMVersion line }
  else if strContains line "NO. OF FUNCTION EVALUATIONS USED" then
    some { st with functionEvaluations := some (replaceTrim line "NO. OF FUNCTION EVALUATIONS USED:") }
  else if strContains line "NO. OF SIG. DIGITS IN FINAL EST.:" then
    some { st with significantDigits := some (replaceTrim line "NO. OF SIG. DIGITS IN FINAL EST.:") }
  else if strContains line "Elapsed estimation" then
    some { st with estimationTime := some line }
  else if strContains line "Elapsed covariance time in seconds:" then
    some { st with covarianceTime := some line }
  else if strContains line "Elapsed postprocess time in seconds:" then
    some { st with covarianceTime := some line }
  else if strContains line "Started" then
    some { st with runStart := replaceTrim line "Started" }
  else if strContains line "Finished" then
    some { st with runEnd := replaceTrim line "Finished" }
  else if strContains line "Stop Time:" then
    some (if i + 1 < lines.length then { st with runEnd := (lines.get? (i + 1)).getD st.runEnd } else st)
  else if strContains line "$PROB" then
    some { st with problemText := replaceTrim line "$PROB" }
  else if strContains line "#METH:" then
    some { st with estimationMethod := st.estimationMethod ++ [replaceTrim line "#METH:"] }
  else if strContains line "$DATA" then
    (parseLine line 1).map (fun d => { st with dataSet := d })
  else if strContains line "TOT. NO. OF INDIVIDUALS:" then
    some { st with numberOfPatients := some (replaceTrim line "TOT. NO. OF INDIVIDUALS:") }
  else if strContains line "TOT. NO. OF OBS RECS:" then
    some { st with numberOfObs := some (replaceTrim line "TOT. NO. OF OBS RECS:") }
  else if strContains line "NO. OF DATA RECS IN DATA SET:" then
    some { st with numberOfDataRecords := some (replaceTrim line "NO. OF DATA RECS IN DATA SET:") }
  else
    some st

/-- Run the `ParseRunDetails` loop over the indexed remainder of the input. -/
def rdLoopAux (lines : List String) : List (Nat × String) → RunDetails → Option RunDetails
  | [], st => some st
  | (i, line) :: rest, st => (rdStep lines i line st).bind (rdLoopAux lines rest)

/-- The whole `for i, line := range lines` loop of `ParseRunDetails`,
starting from the default-initialised locals. -/
def rdLoop (lines : List String) : Option RunDetails :=
  rdLoopAux lines lines.enum {}

/-- `ParseRunDetails(lines)`. After the loop, when the version is
`"7.4.3"` and no run-start line was recorded, the fallback `lines[0]` is
read; `lines.get? 0 = none` there models the out-of-bounds panic on an
empty input, and a `none` from the loop models the `parseLine` panic. -/
def ParseRunDetails (lines : List String) : Option RunDetails :=
  (rdLoop lines).bind (fun st =>
    if st.version = "7.4.3" then
      if st.runStart = "" ∨ st.runStart = DefaultString then
        (lines.get? 0).map (fun l0 => { st with runStart := l0 })
      else some st
    else some st)

/-! ### runner data types (referenced by cmd/nonmem.go) -/

/-- `runner.RunSettings`: flat configuration snapshot copied by value into
each model. Retention levels are Go `int`s, kept as `Int`. -/
structure RunSettings where
  git : Bool := false
  verbose : Bool := false
  debug : Bool := false
  cleanLvl : Int := 0
  copyLvl : Int := 0
  cacheDir : String := ""
  exeNameInCache : String := ""
  nmExecutableOrPath : String := ""
  oneEst : Bool := false
  overwrite : Bool := false
  deriving Repr, DecidableEq

/-- `NonMemModel` from cmd/nonmem.go. `error` is the optional setup error
(a Go `error`, `none` = nil). -/
structure NonMemModel where
  model : String := ""
  path : String := ""
  fileName : String := ""
  extension : String := ""
  originalPath : String := ""
  outputDir : String := ""
  settings : RunSettings := {}
  error : Option String := none
  deriving Repr, DecidableEq

/-- `runner.TargetedFile`: a filename paired with the retention level at
which it was selected. -/
structure TargetedFile where
  file : String
  level : Int
  deriving Repr, DecidableEq

/-- `runner.FileCleanInstruction`. -/
structure FileCleanInstruction where
  location : String := ""
  filesToRemove : List TargetedFile := []
  deriving Repr, DecidableEq

/-- `runner.FileCopyInstruction`. -/
structure FileCopyInstruction where
  copyTo : String := ""
  copyFrom : String := ""
  filesToCopy : List TargetedFile := []
  deriving Repr, DecidableEq

/-! ### Targeted-file policy (cmd/nonmem.go) -/

/-- The tier-2 table of literal reserved filenames of
`getActionableFileList` (`files[2]` in the source). -/
def reservedTier2 : List String :=
  ["background.set", "compile.lnk", "FCON", "FDATA", "FMSG", "FREPORT",
   "FSIZES", "FSTREAM", "FSUBS", "FSUBS.0", "FSUBS.o", "FSUBS_MU.F90",
   "FSUBS.f90", "fsubs.f90", "FSUBS2", "gfortran.txt", "GFCOMPILE.BAT",
   "INTER", "licfile.set", "linkc.lnk", "LINK.LNK", "LINKC.LNK",
   "locfile.set", "maxlim.set", "newline", "nmexec.set", "nmpathlist.txt",
   "nmprd4p.mod", "nobuild.set", "parafile.set", "parafprint.set",
   "prcompile.set", "prdefault.set", "prsame.set", "PRSIZES.f90",
   "rundir.set", "runpdir.set", "simparon.set", "temp_dir",
   "tprdefault.set", "trskip.set", "worker.set", "xmloff.set",
   "fort.2001", "fort.2002", "flushtime.set"]

/-- The per-tier lookup of literal reserved filenames (the `files` map).
Tier 1 holds the dynamically declared output-table names that
`parser.FindOutputFiles` extracts from the model file (an external
collaborator reading the filesystem, so passed in as `outputTables`);
every other tier except 2 is absent, i.e. empty. -/
def literalTierFiles (outputTables : List String) (i : Int) : List String :=
  if i = 1 then outputTables
  else if i = 2 then reservedTier2
  else []

/-- The per-tier lookup of filename-extension patterns (the `extensions`
map of `extrapolateFilesFromExtensions`), duplicates preserved as in the
source. -/
def extensionsTier (i : Int) : List String :=
  if i = 1 then [".xml", ".grd", ".shk", ".cor", ".cov", ".ext", ".lst"]
  else if i = 2 then [".clt", ".coi", ".clt", ".coi", ".cpu", ".shm", ".phi"]
  else if i = 3 then ["", "_ETAS", "_RMAT", "_SMAT", ".msf", "_ETAS.msf", "_RMAT.msf", "_SMAT.msf"]
  else []

/-- The tiers visited by the Go loop `for i := 0; i <= level; i++`
(empty when `level` is negative). -/
def tierRange (level : Int) : List Int :=
  if level < 0 then [] else (List.range (level.toNat + 1)).map Int.ofNat

/-- The base filename of `getActionableFileList`: the first component of
`strings.Split(file, ".")`, i.e. the prefix of `file` before its first
dot (the whole of `file` when it has none). -/
def filenameOf (file : String) : String :=
  String.mk (file.toList.takeWhile (fun c => c != '.'))

/-- `extrapolateFilesFromExtensions(filename, level, filepath)`: for every
tier `0..level`, every `filename`+pattern combination, trimmed. (The
`filepath` argument of the Go function is unused there.) -/
def extrapolateFilesFromExtensions (filename : String) (level : Int) : List String :=
  (tierRange level).flatMap (fun i => (extensionsTier i).map (fun ext => trimSpaceGo (filename ++ ext)))

/-- `getActionableFileList(file, level, filepath)`: the literal reserved
names of every tier `0..level` (tier-1 entries being the output-table
names declared in the model file), followed by the extension-derived
names of every tier `0..level`. -/
def getActionableFileList (file : String) (level : Int) (outputTables : List String) : List String :=
  (tierRange level).flatMap (literalTierFiles outputTables) ++
    extrapolateFilesFromExtensions (filenameOf file) level

/-- `isFilenameInExceptions(haystack, needle)`: linear scan for equality. -/
def isFilenameInExceptions (haystack : List String) (needle : String) : Bool :=
  haystack.any (fun v => v == needle)

/-- `newTargetFile(filename, level)`. -/
def newTargetFile (filename : String) (level : Int) : TargetedFile :=
  { file := filename, level := level }

/-- `filesToCleanup(model, exceptions...)`: every actionable file at the
configured clean level that is not in the exceptions list, tagged with
the clean level. -/
def filesToCleanup (model : NonMemModel) (outputTables : List String)
    (exceptions : List String) : FileCleanInstruction :=
  { location := model.outputDir
    filesToRemove :=
      ((getActionableFileList model.model model.settings.cleanLvl outputTables).filter
        (fun v => !isFilenameInExceptions exceptions v)).map
        (fun v => newTargetFile v model.settings.cleanLvl) }

/-- `filesToCopy(model, mandatoryFiles...)`: the mandatory files first,
each tagged with the sentinel level 11 ("crank it up to 11"), then every
actionable file at the configured copy level. -/
def filesToCopy (model : NonMemModel) (outputTables : List String)
    (mandatoryFiles : List String) : FileCopyInstruction :=
  { copyTo := model.originalPath
    copyFrom := model.outputDir
    filesToCopy :=
      mandatoryFiles.map (fun v => newTargetFile v 11) ++
        (getActionableFileList model.model model.settings.copyLvl outputTables).map
          (fun v => newTargetFile v model.settings.copyLvl) }

/-! ### SGE work-unit lifecycle (cmd/sge.go)

Channel sends are modelled as a trace of `Signal`s; filesystem / process
actions as a trace of `Effect`s. The outcomes of the fallible external
operations (directory existence, `RemoveAll`, file copy, script
generation, `exec.LookPath`, running the submission command) form the
environment a run is evaluated against. -/

/-- `turnstile.ConcurrentError`: run identifier, underlying cause
(`Option` models a Go `error`, `none` = nil), human-readable note. -/
structure ConcurrentError where
  runIdentifier : String := ""
  error : Option String := none
  notes : String := ""
  deriving Repr, DecidableEq

/-- One message on the turnstile `ChannelMap`: `working` is
`channels.Working <- 1`, `failed` is `channels.Failed <- 1`, `errSig` is
`channels.Errors <- e`, `completed` is `channels.Completed <- 1`. -/
inductive Signal where
  | working : Signal
  | failed : Signal
  | errSig : ConcurrentError → Signal
  | completed : Signal
  deriving Repr, DecidableEq

/-- A filesystem / process action of the SGE lifecycle. -/
inductive Effect where
  | removeDir : String → Effect
  | copyModelFile : String → String → Effect
  | writeGitIgnore : String → Effect
  | writeScript : String → Effect
  | chdir : String → Effect
  | lookPathQsub : Effect
  | runCommand : String → String → Effect
  | writeOutFile : String → Effect
  deriving Repr, DecidableEq

/-- `newConcurrentError(model, notes, err)`. -/
def newConcurrentError (model notes : String) (err : Option String) : ConcurrentError :=
  { runIdentifier := model, error := err, notes := notes }

/-- `recordConcurrentError(model, notes, err, channels)`: one `Failed`
increment, one `ConcurrentError`, one `Completed` increment, in that
order. -/
def recordConcurrentError (model notes : String) (err : String) : List Signal :=
  [Signal.failed, Signal.errSig (newConcurrentError model notes (some err)), Signal.completed]

/-- The note of the Prepare failure on an existing output directory with
overwrite disabled (the Sprintf at the `else` branch of the existence
check; note the comma placement of the source string). -/
def noOverwriteNote (outputDir : String) : String :=
  "The target directory, " ++ outputDir ++ " already, exists, but we are configured to not overwrite. Invalid configuration / run state"

/-- The note of the Prepare failure when copying the model file fails. -/
def copyFailNote (model outputDir : String) : String :=
  "There appears to have been an issue trying to copy " ++ model ++ " to " ++ outputDir

/-- Go `path.Join` of a directory and a filename, as a plain separator
concatenation (both arguments are already clean in every call modelled). -/
def pathJoin (dir file : String) : String := dir ++ "/" ++ file

/-- Environment of `SGEModel.Prepare`: outcomes of the external
operations it performs, in the order the source consults them. -/
structure PrepareEnv where
  dirExists : Bool := false
  removeErr : Option String := none
  copyErr : Option String := none
  gitFlag : Bool := false
  scriptErr : Option String := none
  deriving Repr, DecidableEq

/-- The tail of `SGEModel.Prepare` after the output-directory handling:
copy the model file (the gitignore file is written, when configured,
before the copy error is even checked — as in the source), then generate
and write the execution script. `effs0` carries the effects of the
directory handling. -/
def sgePrepareCopy (m : NonMemModel) (env : PrepareEnv) (effs0 : List Effect) :
    List Signal × List Effect :=
  let effs1 := effs0 ++ [Effect.copyModelFile m.path m.outputDir] ++
    (if env.gitFlag then [Effect.writeGitIgnore m.outputDir] else [])
  match env.copyErr with
  | some e =>
    (Signal.working :: recordConcurrentError m.model (copyFailNote m.model m.outputDir) e, effs1)
  | none =>
    match env.scriptErr with
    | some e =>
      (Signal.working :: recordConcurrentError m.model "An error occurred during the creation of the executable script for this model" e, effs1)
    | none =>
      ([Signal.working], effs1 ++ [Effect.writeScript (pathJoin m.outputDir (m.fileName ++ ".sh"))])

/-- `SGEModel.Prepare(channels)`: report started, resolve the
output-directory conflict (failing without any filesystem effect when it
exists and overwrite is off; removing it when overwrite is on), then copy
the model file, optionally write the gitignore file, and write the
generated execution script. -/
def sgePrepare (m : NonMemModel) (env : PrepareEnv) : List Signal × List Effect :=
  if env.dirExists then
    if m.settings.overwrite then
      match env.removeErr with
      | some e =>
        (Signal.working :: recordConcurrentError m.model "An error occured trying to remove the directory as specified in the overwrite flag" e,
          [Effect.removeDir m.outputDir])
      | none => sgePrepareCopy m env [Effect.removeDir m.outputDir]
    else
      (Signal.working :: recordConcurrentError m.model (noOverwriteNote m.outputDir) "The output directory already exists",
        [])
  else sgePrepareCopy m env []

/-- Outcome of `command.CombinedOutput()` for the submission command. -/
inductive CommandResult where
  | success : String → CommandResult
  | failure : String → CommandResult
  deriving Repr, DecidableEq

/-- Environment of the SGE Work phase: the `exec.LookPath("qsub")` result
(`none` = not found) and the outcome of running the command. -/
structure WorkEnv where
  qsubPath : Option String := none
  commandResult : CommandResult := CommandResult.failure ""
  deriving Repr, DecidableEq

/-- `executeSGEJob(model)`: change into the output directory, look up
`qsub`, run `binary scriptName`, write the captured output on success.
When the lookup fails the source constructs
`newConcurrentError(model.Model, "Could not locate qsub binary in path", err)`
but discards it (no `return`), so execution falls through with the
zero-value `binary` of `""` and the command is still invoked. -/
def executeSGEJob (m : NonMemModel) (env : WorkEnv) : ConcurrentError × List Effect :=
  let binary : String := env.qsubPath.getD ""
  let scriptName := m.fileName ++ ".sh"
  let effs := [Effect.chdir m.outputDir, Effect.lookPathQsub,
    Effect.runCommand binary scriptName]
  match env.commandResult with
  | CommandResult.success output =>
    ({}, effs ++ [Effect.writeOutFile (pathJoin m.outputDir (m.model ++ ".out"))])
  | CommandResult.failure e =>
    (newConcurrentError m.model "Running the programmatic shell script caused an error" (some e), effs)

/-- `SGEModel.Work(channels)`: run the job through `executeNonMemJob`
(modelled from the spec as invoking the backend function directly — its
definition is not among the provided sources) and record a concurrent
error exactly when the returned `ConcurrentError` carries one. -/
def sgeWork (m : NonMemModel) (env : WorkEnv) : List Signal × List Effect :=
  let r := executeSGEJob m env
  match r.1.error with
  | some e => (recordConcurrentError m.model r.1.notes e, r.2)
  | none => ([], r.2)

/-- `SGEModel.Monitor(channels)`: a no-op. -/
def sgeMonitor : List Signal := []

/-- `SGEModel.Cleanup(channels)`: report the unit completed. -/
def sgeCleanup : List Signal := [Signal.completed]

/-- Is this signal a `Working` increment? -/
def isWorkingSig : Signal → Bool
  | Signal.working => true
  | _ => false

/-- Is this signal a `Failed` increment? -/
def isFailedSig : Signal → Bool
  | Signal.failed => true
  | _ => false

/-- Is this signal a `Completed` increment? -/
def isCompletedSig : Signal → Bool
  | Signal.completed => true
  | _ => false

/-- Did a phase report this unit failed? (what the worker loop inspects
to decide whether to keep going). -/
def hasFailed (trace : List Signal) : Bool :=
  trace.any isFailedSig

/-- The four lifecycle phases. -/
inductive Phase where
  | prepare | work | monitor | cleanup
  deriving Repr, DecidableEq

/-- Environment of one unit's full lifecycle. -/
structure UnitEnv where
  prepare : PrepareEnv := {}
  work : WorkEnv := {}
  deriving Repr, DecidableEq

/-- Everything one unit's run produces: the channel signals sent, the
filesystem effects performed, the phases the worker actually invoked. -/
structure UnitRun where
  trace : List Signal
  effects : List Effect
  phases : List Phase
  deriving Repr, DecidableEq

/-- Modelled from the spec: the worker loop of the turnstile Manager
(not among the provided sources) drives a claimed unit through
Prepare → (stop if failed) → Work → (stop if failed) → Monitor → Cleanup,
handing each phase the aggregator's signal surface. -/
def runUnit (m : NonMemModel) (env : UnitEnv) : UnitRun :=
  let p := sgePrepare m env.prepare
  if hasFailed p.1 then ⟨p.1, p.2, [Phase.prepare]⟩
  else
    let w := sgeWork m env.work
    if hasFailed w.1 then ⟨p.1 ++ w.1, p.2 ++ w.2, [Phase.prepare, Phase.work]⟩
    else ⟨p.1 ++ w.1 ++ sgeMonitor ++ sgeCleanup, p.2 ++ w.2,
      [Phase.prepare, Phase.work, Phase.monitor, Phase.cleanup]⟩

/-- `StartedCount` after draining a trace: the number of `Working`
increments. -/
def startedCount (t : List Signal) : Nat :=
  t.countP isWorkingSig

/-- `CompletedCount` after draining a trace. -/
def completedCount (t : List Signal) : Nat :=
  t.countP isCompletedSig

/-- `FailedCount` after draining a trace. -/
def failedCount (t : List Signal) : Nat :=
  t.countP isFailedSig

/-- The aggregator's ordered `ErrorList` after draining a trace. -/
def errorList (t : List Signal) : List ConcurrentError :=
  t.filterMap (fun s => match s with | Signal.errSig e => some e | _ => none)

/-- Modelled from the spec: a whole run over a sequence of work units —
every unit is claimed by exactly one worker and driven through its full
lifecycle, and the single consumer drains every signal, so the final
counters are those of the concatenated unit traces. -/
def runAll (units : List (NonMemModel × UnitEnv)) : List Signal :=
  (units.map (fun u => (runUnit u.1 u.2).trace)).flatten

/-! ### Lemmas about the targeted-file policy -/

/-- The tiers visited at a lower level are visited at any higher level. -/
lemma tierRange_mono {a b : Int} (h : a ≤ b) : tierRange a ⊆ tierRange b := by
  unfold tierRange
  by_cases ha : a < 0
  · simp [ha]
  · have hb : ¬ b < 0 := by omega
    simp only [ha, hb, if_false]
    apply List.map_subset
    apply List.range_subset.mpr
    have := Int.toNat_le_toNat h
    omega

/-- Membership transport along `tierRange` through `flatMap`. -/
lemma flatMap_tierRange_mono {a b : Int} (h : a ≤ b) (f : Int → List String)
    {x : String} (hx : x ∈ (tierRange a).flatMap f) : x ∈ (tierRange b).flatMap f := by
  rcases List.mem_flatMap.mp hx with ⟨i, hi, hxi⟩
  exact List.mem_flatMap.mpr ⟨i, tierRange_mono h hi, hxi⟩

end Babylon

namespace Babylon

/-! ### Lemmas about the SGE lifecycle traces -/

/-- The failure helper's trace: no start, one failure, one completion. -/
lemma record_counts (model notes err : String) :
    startedCount (recordConcurrentError model notes err) = 0 ∧
      completedCount (recordConcurrentError model notes err) = 1 ∧
      hasFailed (recordConcurrentError model notes err) = true := by
  simp [recordConcurrentError, newConcurrentError, startedCount, completedCount,
    hasFailed, isWorkingSig, isCompletedSig, isFailedSig]

/-- Every Prepare trace is either the bare start signal (success) or the
start signal followed by one `recordConcurrentError` composition. -/
lemma sgePrepare_trace (m : NonMemModel) (env : PrepareEnv) :
    (sgePrepare m env).1 = [Signal.working] ∨
      ∃ notes err, (sgePrepare m env).1 =
        Signal.working :: recordConcurrentError m.model notes err := by
  have hcopy : ∀ effs0 : List Effect, (sgePrepareCopy m env effs0).1 = [Signal.working] ∨
      ∃ notes err, (sgePrepareCopy m env effs0).1 =
        Signal.working :: recordConcurrentError m.model notes err := by
    intro effs0
    unfold sgePrepareCopy
    rcases hce : env.copyErr with _ | e
    · rcases hse : env.scriptErr with _ | e
      · left; simp [hce, hse]
      · right
        exact ⟨"An error occurred during the creation of the executable script for this model",
          e, by simp [hce, hse]⟩
    · right; exact ⟨copyFailNote m.model m.outputDir, e, by simp [hce]⟩
  unfold sgePrepare
  rcases hde : env.dirExists with _ | _
  · simp only [hde, Bool.false_eq_true, if_false]
    exact hcopy []
  · rcases hov : m.settings.overwrite with _ | _
    · right
      exact ⟨noOverwriteNote m.outputDir, "The output directory already exists",
        by simp [hde, hov]⟩
    · rcases hre : env.removeErr with _ | e
      · simp only [hde, hov, hre, if_true]
        exact hcopy [Effect.removeDir m.outputDir]
      · right
        exact ⟨"An error occured trying to remove the directory as specified in the overwrite flag",
          e, by simp [hde, hov, hre]⟩

/-- Every Work trace is empty (success) or one `recordConcurrentError`
composition. -/
lemma sgeWork_trace (m : NonMemModel) (env : WorkEnv) :
    (sgeWork m env).1 = [] ∨
      ∃ notes err, (sgeWork m env).1 = recordConcurrentError m.model notes err := by
  unfold sgeWork executeSGEJob
  rcases hcr : env.commandResult with o | e
  · left; simp [hcr]
  · right
    exact ⟨"Running the programmatic shell script caused an error", e,
      by simp [hcr, newConcurrentError]⟩

/-- Per-unit lifecycle accounting: every unit that is driven through the
worker loop reports exactly one `Working` increment and exactly one
`Completed` increment, whichever phase fails or succeeds. -/
lemma runUnit_counts (m : NonMemModel) (env : UnitEnv) :
    startedCount (runUnit m env).trace = 1 ∧
      completedCount (runUnit m env).trace = 1 := by
  unfold runUnit
  rcases sgePrepare_trace m env.prepare with hp | ⟨pn, pe, hp⟩
  · rcases sgeWork_trace m env.work with hw | ⟨wn, we, hw⟩ <;>
      simp [hp, hw, hasFailed, isFailedSig, isWorkingSig, isCompletedSig,
        sgeMonitor, sgeCleanup, startedCount, completedCount,
        recordConcurrentError, newConcurrentError,
        List.countP_cons, List.countP_nil, List.countP_append]
  · simp [hp, hasFailed, isFailedSig, isWorkingSig, isCompletedSig,
      startedCount, completedCount, recordConcurrentError, newConcurrentError,
      List.countP_cons, List.countP_nil]

/-! ### Claim theorems -/

/-- C2: for every base name, directory inputs and level `L ≥ 1`, the
filename sequence computed by the targeted-file policy
(`getActionableFileList` together with `extrapolateFilesFromExtensions`)
at level `L` contains, as a subset, every filename it computes at level
`L - 1` for the same inputs — monotonicity in the retention level (the
function is shared by the Clean and Copy roles). -/
theorem getActionableFileList_monotone (file : String) (outputTables : List String)
    (L : Int) (hL : 1 ≤ L) :
    getActionableFileList file (L - 1) outputTables ⊆ getActionableFileList file L outputTables := by
  intro x hx
  unfold getActionableFileList extrapolateFilesFromExtensions at *
  have hle : L - 1 ≤ L := by omega
  rcases List.mem_append.mp hx with hlit | hext
  · exact List.mem_append_left _ (flatMap_tierRange_mono hle _ hlit)
  · exact List.mem_append_right _ (flatMap_tierRange_mono hle _ hext)

/-- Witness for C2 at `L = 1`: the level-0 list is contained in the
level-1 list for the model file `run001.mod` with one declared output
table. -/
theorem getActionableFileList_monotone_witness :
    getActionableFileList "run001.mod" 0 ["sdtab001"] ⊆
      getActionableFileList "run001.mod" 1 ["sdtab001"] :=
  getActionableFileList_monotone "run001.mod" ["sdtab001"] 1 (by decide)

/-- C3: `filesToCopy` returns a `FileCopyInstruction` whose `FilesToCopy`
contains every caller-supplied mandatory filename, tagged with the
sentinel always-include level 11, for every model — in particular for
every configured copy level including level 0. -/
theorem filesToCopy_includes_mandatory (model : NonMemModel)
    (outputTables mandatoryFiles : List String) (v : String)
    (hv : v ∈ mandatoryFiles) :
    newTargetFile v 11 ∈ (filesToCopy model outputTables mandatoryFiles).filesToCopy := by
  unfold filesToCopy
  exact List.mem_append_left _ (List.mem_map.mpr ⟨v, hv, rfl⟩)

/-- Witness for C3 at copy level 0: the mandatory file `acop.lst` is in
the copy list with sentinel level 11. -/
theorem filesToCopy_includes_mandatory_witness :
    newTargetFile "acop.lst" 11 ∈
      (filesToCopy { settings := { copyLvl := 0 } } [] ["acop.lst"]).filesToCopy :=
  filesToCopy_includes_mandatory { settings := { copyLvl := 0 } } [] ["acop.lst"]
    "acop.lst" (by decide)

/-- C4: the `FileCleanInstruction` returned by `filesToCleanup` contains
no filename that is a member of the caller-supplied exceptions list, for
every model, clean level and exceptions list — even when the filename is
produced by a tier literal table or an extension pattern. -/
theorem filesToCleanup_respects_exceptions (model : NonMemModel)
    (outputTables exceptions : List String) (tf : TargetedFile)
    (h : tf ∈ (filesToCleanup model outputTables exceptions).filesToRemove) :
    tf.file ∉ exceptions := by
  unfold filesToCleanup at h
  rcases List.mem_map.mp h with ⟨v, hv, rfl⟩
  have hfilt := List.of_mem_filter hv
  simp only [Bool.not_eq_true', isFilenameInExceptions, List.any_eq_false, beq_iff_eq] at hfilt
  intro hmem
  exact absurd rfl (hfilt _ hmem)

/-- Witness for C4: `run001.ext` is excluded from the clean list even
though it matches the tier-1 extension pattern; `run001.xml` is produced
by that pattern and is indeed in the list, so the hypothesis is
satisfiable at a real member. -/
theorem filesToCleanup_respects_exceptions_witness :
    ("run001.xml" : String) ∉ (["run001.ext"] : List String) :=
  filesToCleanup_respects_exceptions
    { model := "run001.mod", settings := { cleanLvl := 1 } } ["sdtab001"] ["run001.ext"]
    (newTargetFile "run001.xml" 1) (by decide)

/-- C5 counterexample: at level 1 for base name `run001` with the
declared output table `sdtab001`, the policy does NOT list
`run001.xml … run001.lst` followed by the output-table names — the
tier-literal entries (including the dynamically declared tables) come
first and every extension-derived name follows them. -/
theorem getActionableFileList_run001_order_counterexample :
    getActionableFileList "run001.mod" 1 ["sdtab001"] ≠
      ["run001.xml", "run001.grd", "run001.shk", "run001.cor", "run001.cov",
       "run001.ext", "run001.lst", "sdtab001"] := by
  decide

/-- C5 (amended): at level 1 for base name `run001` under the Copy role,
the policy lists the dynamically declared output-table names first,
followed by `run001.xml, run001.grd, run001.shk, run001.cor, run001.cov,
run001.ext, run001.lst` — all literal tier entries for tiers `0..level`
precede all pattern-derived names. -/
theorem getActionableFileList_run001_level1 (outputTables : List String) :
    getActionableFileList "run001.mod" 1 outputTables =
      outputTables ++
        ["run001.xml", "run001.grd", "run001.shk", "run001.cor", "run001.cov",
         "run001.ext", "run001.lst"] := by
  have ht : tierRange 1 = [0, 1] := by decide
  have l0 : literalTierFiles outputTables 0 = [] := rfl
  have l1 : literalTierFiles outputTables 1 = outputTables := rfl
  have e0 : (extensionsTier 0).map (fun ext => trimSpaceGo (filenameOf "run001.mod" ++ ext)) = [] := by decide
  have e1 : (extensionsTier 1).map (fun ext => trimSpaceGo (filenameOf "run001.mod" ++ ext)) =
      ["run001.xml", "run001.grd", "run001.shk", "run001.cor", "run001.cov",
       "run001.ext", "run001.lst"] := by decide
  rw [getActionableFileList, extrapolateFilesFromExtensions, ht]
  simp [l0, l1, e0, e1]

/-- C1: for every run over any sequence of work units driven through
Prepare, Work, Monitor, Cleanup by the worker loop, every unit that
starts contributes exactly one `Completed` signal — via Cleanup on the
success path or via the Failed+Error+Completed composition on every
failure path — so the final `CompletedCount` equals the final
`StartedCount`, which is the total unit count; the run trace is a finite
list, so the counters reach that state in finitely many signals and the
run terminates. -/
theorem run_completed_eq_started (units : List (NonMemModel × UnitEnv)) :
    completedCount (runAll units) = units.length ∧
      startedCount (runAll units) = units.length := by
  induction units with
  | nil => simp [runAll, startedCount, completedCount]
  | cons u rest ih =>
    have h := runUnit_counts u.1 u.2
    simp only [runAll, List.map_cons, List.flatten_cons] at ih ⊢
    simp only [startedCount, completedCount, List.countP_append] at ih h ⊢
    simp only [List.length_cons]
    omega

/-- C6: `recordConcurrentError(model, notes, err, channels)` sends, for
every model identifier, note and cause, exactly one `Failed` unit
increment, exactly one `ConcurrentError` carrying that identifier, cause
and note, and exactly one `Completed` unit increment — so every failure
path routed through it both fails and terminates the unit's counted
lifecycle, and no failure path reports `Failed` without reporting
`Completed`. -/
theorem recordConcurrentError_signals (model notes err : String) :
    recordConcurrentError model notes err =
      [Signal.failed, Signal.errSig ⟨model, some err, notes⟩, Signal.completed] ∧
    failedCount (recordConcurrentError model notes err) = 1 ∧
    errorList (recordConcurrentError model notes err) = [⟨model, some err, notes⟩] ∧
    completedCount (recordConcurrentError model notes err) = 1 := by
  refine ⟨rfl, ?_, ?_, ?_⟩ <;>
    simp [recordConcurrentError, newConcurrentError, failedCount, completedCount,
      errorList, isFailedSig, isCompletedSig]

/-- C7 counterexample: on an existing output directory with overwrite
disabled, the recorded `ConcurrentError`'s note does NOT contain the
substring `"already exists"` — the source note reads `"already, exists"`
(comma placement), so the claim as stated fails; the substring occurs
only in the underlying error message. -/
theorem prepare_noOverwrite_note_counterexample :
    errorList (runUnit
        { model := "acop.mod", outputDir := "/data/acop_est",
          settings := { overwrite := false } }
        { prepare := { dirExists := true } }).trace =
      [{ runIdentifier := "acop.mod", error := some "The output directory already exists",
         notes := noOverwriteNote "/data/acop_est" }] ∧
    strContains (noOverwriteNote "/data/acop_est") "already exists" = false := by
  constructor
  · rfl
  · decide

/-- C7 (amended): for every unit whose output directory already exists
while `Overwrite` is false, Prepare reports failure with a
`ConcurrentError` whose underlying error message is
`"The output directory already exists"` (which contains
`"already exists"`; the note itself references the directory but spells
`"already, exists"`), and returns without removing the directory, copying
the model file, writing the version-control ignore file, or generating
the execution script; the unit's trace ends Completed-Failure and its
Work and Cleanup phases are never invoked. -/
theorem prepare_noOverwrite_fails_cleanly (m : NonMemModel) (env : UnitEnv)
    (hex : env.prepare.dirExists = true) (hov : m.settings.overwrite = false) :
    runUnit m env =
      { trace := Signal.working :: recordConcurrentError m.model
          (noOverwriteNote m.outputDir) "The output directory already exists",
        effects := [],
        phases := [Phase.prepare] } ∧
    strContains "The output directory already exists" "already exists" = true := by
  constructor
  · have hprep : sgePrepare m env.prepare =
        (Signal.working :: recordConcurrentError m.model
          (noOverwriteNote m.outputDir) "The output directory already exists", []) := by
      unfold sgePrepare
      simp [hex, hov]
    unfold runUnit
    simp [hprep, hasFailed, isFailedSig, recordConcurrentError]
  · decide

/-- Witness for C7 (amended) at a concrete unit. -/
theorem prepare_noOverwrite_fails_cleanly_witness :
    runUnit
        { model := "acop.mod", outputDir := "/data/acop_est",
          settings := { overwrite := false } }
        { prepare := { dirExists := true } } =
      { trace := Signal.working :: recordConcurrentError "acop.mod"
          (noOverwriteNote "/data/acop_est") "The output directory already exists",
        effects := [],
        phases := [Phase.prepare] } ∧
    strContains "The output directory already exists" "already exists" = true :=
  prepare_noOverwrite_fails_cleanly
    { model := "acop.mod", outputDir := "/data/acop_est",
      settings := { overwrite := false } }
    { prepare := { dirExists := true } } rfl rfl

/-- C8: when `qsub` cannot be located on the search path,
`executeSGEJob` evaluates to a run that STILL invokes the submission
command — with the zero-value binary `""` — because the constructed
`"Could not locate qsub binary in path"` error is discarded (missing
`return` in the source), and the unit's recorded error is the generic
`"Running the programmatic shell script caused an error"` from the
doomed invocation, contradicting the claim that the Work phase records
the submission-lookup failure and terminates without invoking the
command. -/
theorem executeSGEJob_qsub_missing_still_invokes :
    executeSGEJob
        { model := "acop.mod", fileName := "acop", outputDir := "/data/acop_est" }
        { qsubPath := none, commandResult := CommandResult.failure "exec: no command" } =
      ({ runIdentifier := "acop.mod", error := some "exec: no command",
         notes := "Running the programmatic shell script caused an error" },
       [Effect.chdir "/data/acop_est", Effect.lookPathQsub,
        Effect.runCommand "" "acop.sh"]) ∧
    ("Running the programmatic shell script caused an error" : String) ≠
      "Could not locate qsub binary in path" := by
  constructor
  · rfl
  · decide

/-- C9: `parseLine` is NOT total — its bounds guard is `len(tokens) >= n`
where the subsequent access `tokens[n]` needs `len(tokens) > n`, so a
line holding exactly `n` whitespace-separated tokens panics (modelled by
`none`); in particular `ParseRunDetails` panics on a line containing
`"$DATA"` with exactly one token. -/
theorem parseLine_data_line_panics :
    parseLine "$DATA" 1 = none ∧ ParseRunDetails ["$DATA"] = none := by
  constructor
  · rfl
  · rfl

/-- C10: the fallback access `lines[0]` taken when the parsed version
equals `"7.4.3"` and no run-start line was found is reachable only when
some line matched the NONMEM version marker, which implies the input list
is non-empty; hence for every input list — including the empty list — the
access never indexes out of bounds. -/
theorem runDetails_fallback_index_safe (lines : List String) (st : RunDetails)
    (hloop : rdLoop lines = some st) (hver : st.version = "7.4.3")
    (hstart : st.runStart = "" ∨ st.runStart = DefaultString) :
    (lines.get? 0).isSome = true := by
  cases lines with
  | nil =>
    have hst : st = {} := by
      simpa [rdLoop, rdLoopAux] using hloop.symm
    rw [hst] at hver
    exact absurd hver (by decide)
  | cons a t => rfl

/-- Witness for C10: a single line carrying the NONMEM version marker for
7.4.3 drives the loop to a state satisfying the fallback guard, and the
head access is in bounds. -/
theorem runDetails_fallback_index_safe_witness :
    ((["1NONLINEAR MIXED EFFECTS MODEL PROGRAM (NONMEM) VERSION 7.4.3"] : List String).get? 0).isSome = true :=
  runDetails_fallback_index_safe
    ["1NONLINEAR MIXED EFFECTS MODEL PROGRAM (NONMEM) VERSION 7.4.3"]
    { version := "7.4.3" } (by decide) rfl (Or.inr rfl)

end Babylon
